import Mathlib

/-!
Shallow embedding of the analytics-dashboard frontend's client modules:
browser storage (localStorage), the JSON codec boundary, the auth/session
helpers (auth.js, adminAuth.js), the fetch wrappers (auth.js, api.js,
adminAuth.js), URL/base-url resolution (api.js, part_008, part_010),
the route guard (part_009), the moving-average utility (format.js),
and the MCQ counter bookkeeping (part_001, part_002).
-/

/-- Browser localStorage modelled as a partial map from string keys to string values. -/
def Store : Type := String → Option String

/-- The empty storage. -/
def emptyStore : Store := fun _ => none

/-- localStorage.setItem. -/
def setItem (key value : String) (st : Store) : Store :=
  fun k => if k = key then some value else st k

/-- localStorage.removeItem. -/
def removeItem (key : String) (st : Store) : Store :=
  fun k => if k = key then none else st k

/-- localStorage.getItem. -/
def getItem (key : String) (st : Store) : Option String := st key

/-- JS truthiness of an optional string: null/undefined and the empty string are falsy. -/
def truthyS : Option String → Bool
  | some s => s != ""
  | none => false

/-- JS logical-or on optional strings: the left value when truthy, otherwise the right. -/
def orS (a b : Option String) : Option String := if truthyS a then a else b

/-- Does the character list start with the given pattern (String.prototype.startsWith)? -/
def charsStartWith : List Char → List Char → Bool
  | _, [] => true
  | [], _ :: _ => false
  | c :: s, p :: ps => c == p && charsStartWith s ps

/-- First index at which the pattern occurs (String.prototype.indexOf), none when absent. -/
def subIdx (pat : List Char) : List Char → Option Nat
  | [] => if charsStartWith [] pat then some 0 else none
  | c :: t =>
    if charsStartWith (c :: t) pat then some 0
    else (subIdx pat t).map Nat.succ

/-- String.prototype.includes. -/
def containsSub (s pat : String) : Bool := (subIdx pat.data s.data).isSome

/-- Opening curly brace character, obtained from its escape. -/
def lbraceC : Char := "\x7b".data.headD ' '

/-- Closing curly brace character, obtained from its escape. -/
def rbraceC : Char := "\x7d".data.headD ' '

mutual
/-- JSON values as produced and consumed by JSON.stringify / JSON.parse
(numbers restricted to integers, which is all this frontend stores). -/
inductive Json where
  | null : Json
  | bool (b : Bool) : Json
  | num (n : Int) : Json
  | str (s : String) : Json
  | arr (xs : JsonList) : Json
  | obj (fs : JsonObj) : Json
deriving DecidableEq

/-- A list of JSON values (elements of a JSON array). -/
inductive JsonList where
  | nil : JsonList
  | cons (hd : Json) (tl : JsonList) : JsonList
deriving DecidableEq

/-- The fields of a JSON object, in order. -/
inductive JsonObj where
  | nil : JsonObj
  | cons (key : String) (val : Json) (tl : JsonObj) : JsonObj
deriving DecidableEq
end

/-- Is the JSON-array spine empty? -/
def isNilL : JsonList → Bool
  | JsonList.nil => true
  | JsonList.cons _ _ => false

/-- Is the JSON-object spine empty? -/
def isNilO : JsonObj → Bool
  | JsonObj.nil => true
  | JsonObj.cons _ _ _ => false

/-- Escape a string body for JSON output (quote and backslash). -/
def escapeChars : List Char → String
  | [] => ""
  | c :: t =>
    (if c == '"' then "\\\""
     else if c == '\\' then "\\\\"
     else String.singleton c) ++ escapeChars t

mutual
/-- JSON.stringify on a JSON value. -/
def stringifyJson : Json → String
  | Json.null => "null"
  | Json.bool true => "true"
  | Json.bool false => "false"
  | Json.num n => toString n
  | Json.str s => "\"" ++ escapeChars s.data ++ "\""
  | Json.arr xs => "[" ++ stringifyList xs ++ "]"
  | Json.obj fs => "\x7b" ++ stringifyFields fs ++ "\x7d"

/-- JSON.stringify on the elements of an array, comma separated. -/
def stringifyList : JsonList → String
  | JsonList.nil => ""
  | JsonList.cons x t =>
    stringifyJson x ++ (if isNilL t then "" else ",") ++ stringifyList t

/-- JSON.stringify on the fields of an object, comma separated. -/
def stringifyFields : JsonObj → String
  | JsonObj.nil => ""
  | JsonObj.cons k v t =>
    "\"" ++ escapeChars k.data ++ "\":" ++ stringifyJson v ++
      (if isNilO t then "" else ",") ++ stringifyFields t
end

/-- JS truthiness of a JSON value (null, false, 0 and "" are falsy). -/
def jsTruthy : Json → Bool
  | Json.null => false
  | Json.bool b => b
  | Json.num n => n != 0
  | Json.str s => s != ""
  | Json.arr _ => true
  | Json.obj _ => true

/-- Field lookup in a JSON object spine. -/
def fieldLookup : JsonObj → String → Option Json
  | JsonObj.nil, _ => none
  | JsonObj.cons k v t, key => if k = key then some v else fieldLookup t key

/-- JS member access `j.key`: a field of an object, undefined otherwise. -/
def getField (j : Json) (key : String) : Option Json :=
  match j with
  | Json.obj fs => fieldLookup fs key
  | _ => none

mutual
/-- JS String() conversion of a JSON value. -/
def jsString : Json → String
  | Json.null => "null"
  | Json.bool true => "true"
  | Json.bool false => "false"
  | Json.num n => toString n
  | Json.str s => s
  | Json.arr xs => jsStringList xs
  | Json.obj _ => "[object Object]"

/-- JS Array.prototype.toString: elements joined with commas. -/
def jsStringList : JsonList → String
  | JsonList.nil => ""
  | JsonList.cons x t =>
    jsString x ++ (if isNilL t then "" else ",") ++ jsStringList t
end

/-- Skip JSON whitespace. -/
def skipWs : List Char → List Char
  | [] => []
  | c :: t =>
    if c == ' ' || c == '\n' || c == '\t' || c == '\r' then skipWs t else c :: t

/-- Read a run of decimal digits into an accumulator, returning the rest. -/
def digitsToNat (acc : Nat) : List Char → (Nat × List Char)
  | [] => (acc, [])
  | c :: t =>
    if c.isDigit then digitsToNat (acc * 10 + (c.toNat - '0'.toNat)) t
    else (acc, c :: t)

/-- Parse a JSON string body after the opening quote (lenient on escapes). -/
def parseStrBody (fuel : Nat) (acc : List Char) (cs : List Char) :
    Option (String × List Char) :=
  match fuel with
  | 0 => none
  | f + 1 =>
    match cs with
    | [] => none
    | c :: t =>
      if c == '"' then some (String.mk acc.reverse, t)
      else if c == '\\' then
        match t with
        | [] => none
        | e :: t2 => parseStrBody f (e :: acc) t2
      else parseStrBody f (c :: acc) t

mutual
/-- Parse one JSON value from the character stream (fuel-bounded descent). -/
def parseVal (fuel : Nat) (cs : List Char) : Option (Json × List Char) :=
  match fuel with
  | 0 => none
  | f + 1 =>
    match cs with
    | [] => none
    | c :: t =>
      if c == 'n' then
        if charsStartWith t ['u', 'l', 'l'] then some (Json.null, t.drop 3) else none
      else if c == 't' then
        if charsStartWith t ['r', 'u', 'e'] then some (Json.bool true, t.drop 3) else none
      else if c == 'f' then
        if charsStartWith t ['a', 'l', 's', 'e'] then some (Json.bool false, t.drop 4) else none
      else if c == '"' then
        (parseStrBody f [] t).map (fun p => (Json.str p.1, p.2))
      else if c == '-' then
        match t with
        | d :: _ =>
          if d.isDigit then
            let p := digitsToNat 0 t
            some (Json.num (-(p.1 : Int)), p.2)
          else none
        | [] => none
      else if c.isDigit then
        let p := digitsToNat 0 (c :: t)
        some (Json.num (p.1 : Int), p.2)
      else if c == '[' then
        match skipWs t with
        | ']' :: t2 => some (Json.arr JsonList.nil, t2)
        | t1 => (parseArrItems f t1).map (fun p => (Json.arr p.1, p.2))
      else if c == lbraceC then
        match skipWs t with
        | x :: t2 =>
          if x == rbraceC then some (Json.obj JsonObj.nil, t2)
          else (parseObjItems f (x :: t2)).map (fun p => (Json.obj p.1, p.2))
        | [] => none
      else none

/-- Parse the comma-separated items of a non-empty JSON array. -/
def parseArrItems (fuel : Nat) (cs : List Char) : Option (JsonList × List Char) :=
  match fuel with
  | 0 => none
  | f + 1 =>
    match parseVal f (skipWs cs) with
    | some (v, r1) =>
      match skipWs r1 with
      | ',' :: r2 => (parseArrItems f r2).map (fun p => (JsonList.cons v p.1, p.2))
      | ']' :: r2 => some (JsonList.cons v JsonList.nil, r2)
      | _ => none
    | none => none

/-- Parse the comma-separated fields of a non-empty JSON object. -/
def parseObjItems (fuel : Nat) (cs : List Char) : Option (JsonObj × List Char) :=
  match fuel with
  | 0 => none
  | f + 1 =>
    match skipWs cs with
    | c :: t =>
      if c == '"' then
        match parseStrBody f [] t with
        | some (k, r1) =>
          match skipWs r1 with
          | ':' :: r2 =>
            match parseVal f (skipWs r2) with
            | some (v, r3) =>
              match skipWs r3 with
              | ',' :: r4 => (parseObjItems f r4).map (fun p => (JsonObj.cons k v p.1, p.2))
              | x :: r4 =>
                if x == rbraceC then some (JsonObj.cons k v JsonObj.nil, r4) else none
              | [] => none
            | none => none
          | _ => none
        | none => none
      else none
    | [] => none
end

/-- JSON.parse: parse a whole string as one JSON value, none when it throws. -/
def jsonParse (s : String) : Option Json :=
  match parseVal (2 * s.data.length + 4) (skipWs s.data) with
  | some (v, rest) => if (skipWs rest).isEmpty then some v else none
  | none => none

theorem jsonParse_sample :
    jsonParse "\x7b\"name\":\"alice\",\"id\":7,\"roles\":[\"a\",true,null,-2]\x7d" =
      some (Json.obj (JsonObj.cons "name" (Json.str "alice")
        (JsonObj.cons "id" (Json.num 7)
          (JsonObj.cons "roles" (Json.arr (JsonList.cons (Json.str "a")
            (JsonList.cons (Json.bool true) (JsonList.cons Json.null
              (JsonList.cons (Json.num (-2)) JsonList.nil))))) JsonObj.nil)))) := by
  rfl

theorem jsonParse_stringify_sample :
    jsonParse (stringifyJson (Json.obj (JsonObj.cons "a" (Json.num 1)
      (JsonObj.cons "b" (Json.str "x\"y") JsonObj.nil)))) =
      some (Json.obj (JsonObj.cons "a" (Json.num 1)
        (JsonObj.cons "b" (Json.str "x\"y") JsonObj.nil))) := by
  rfl

namespace AuthJs

/-- Storage key of the user bearer token (auth.js TOKEN_KEY). -/
def TOKEN_KEY : String := "auth_token"

/-- Storage key of the cached user object (auth.js USER_KEY). -/
def USER_KEY : String := "auth_user"

/-- auth.js getToken: the stored token, null when absent or empty. -/
def getToken (st : Store) : Option String :=
  match getItem TOKEN_KEY st with
  | some s => if s = "" then none else some s
  | none => none

/-- auth.js setToken: stores a truthy token, removes the key otherwise. -/
def setToken (token : Option String) (st : Store) : Store :=
  if truthyS token then setItem TOKEN_KEY (token.getD "") st
  else removeItem TOKEN_KEY st

/-- auth.js clearAuth: removes the token and the cached user. -/
def clearAuth (st : Store) : Store :=
  removeItem USER_KEY (removeItem TOKEN_KEY st)

/-- auth.js getStoredUser: JSON.parse of the stored user, null when absent or unparseable. -/
def getStoredUser (st : Store) : Option Json :=
  match getItem USER_KEY st with
  | some raw => if raw = "" then none else jsonParse raw
  | none => none

/-- auth.js setStoredUser: stores JSON.stringify of a truthy user, removes the key otherwise. -/
def setStoredUser (user : Option Json) (st : Store) : Store :=
  match user with
  | some u =>
    if jsTruthy u then setItem USER_KEY (stringifyJson u) st
    else removeItem USER_KEY st
  | none => removeItem USER_KEY st

/-- auth.js logout: POSTs /api/auth/logout, then clearAuth in the finally block;
its effect on storage is clearAuth on every path. -/
def logoutStore (st : Store) : Store := clearAuth st

end AuthJs

namespace AdminAuthJs

/-- Storage key of the admin bearer token (adminAuth.js ADMIN_TOKEN_KEY). -/
def ADMIN_TOKEN_KEY : String := "admin_auth_token"

/-- Storage key of the cached admin user (adminAuth.js ADMIN_USER_KEY). -/
def ADMIN_USER_KEY : String := "admin_auth_user"

/-- adminAuth.js getAdminToken. -/
def getAdminToken (st : Store) : Option String :=
  match getItem ADMIN_TOKEN_KEY st with
  | some s => if s = "" then none else some s
  | none => none

/-- adminAuth.js setAdminToken. -/
def setAdminToken (token : Option String) (st : Store) : Store :=
  if truthyS token then setItem ADMIN_TOKEN_KEY (token.getD "") st
  else removeItem ADMIN_TOKEN_KEY st

/-- adminAuth.js clearAdminAuth. -/
def clearAdminAuth (st : Store) : Store :=
  removeItem ADMIN_USER_KEY (removeItem ADMIN_TOKEN_KEY st)

/-- adminAuth.js getStoredAdminUser. -/
def getStoredAdminUser (st : Store) : Option Json :=
  match getItem ADMIN_USER_KEY st with
  | some raw => if raw = "" then none else jsonParse raw
  | none => none

/-- adminAuth.js setStoredAdminUser. -/
def setStoredAdminUser (user : Option Json) (st : Store) : Store :=
  match user with
  | some u =>
    if jsTruthy u then setItem ADMIN_USER_KEY (stringifyJson u) st
    else removeItem ADMIN_USER_KEY st
  | none => removeItem ADMIN_USER_KEY st

/-- adminAuth.js adminLogout: clearAdminAuth only. -/
def adminLogoutStore (st : Store) : Store := clearAdminAuth st

end AdminAuthJs

theorem setItem_other {k key v : String} {st : Store} (h : k ≠ key) :
    setItem key v st k = st k := by
  simp [setItem, h]

theorem removeItem_other {k key : String} {st : Store} (h : k ≠ key) :
    removeItem key st k = st k := by
  simp [removeItem, h]

theorem AuthJs.setToken_other {t : Option String} {st : Store} {k : String}
    (h : k ≠ AuthJs.TOKEN_KEY) : AuthJs.setToken t st k = st k := by
  unfold AuthJs.setToken
  split
  · exact setItem_other h
  · exact removeItem_other h

theorem AuthJs.setStoredUser_other {u : Option Json} {st : Store} {k : String}
    (h : k ≠ AuthJs.USER_KEY) : AuthJs.setStoredUser u st k = st k := by
  unfold AuthJs.setStoredUser
  cases u with
  | none => exact removeItem_other h
  | some v =>
    dsimp only
    split
    · exact setItem_other h
    · exact removeItem_other h

theorem AuthJs.clearAuth_other {st : Store} {k : String}
    (h1 : k ≠ AuthJs.TOKEN_KEY) (h2 : k ≠ AuthJs.USER_KEY) :
    AuthJs.clearAuth st k = st k := by
  unfold AuthJs.clearAuth
  rw [removeItem_other h2, removeItem_other h1]

theorem AdminAuthJs.setAdminToken_other {t : Option String} {st : Store} {k : String}
    (h : k ≠ AdminAuthJs.ADMIN_TOKEN_KEY) : AdminAuthJs.setAdminToken t st k = st k := by
  unfold AdminAuthJs.setAdminToken
  split
  · exact setItem_other h
  · exact removeItem_other h

theorem AdminAuthJs.setStoredAdminUser_other {u : Option Json} {st : Store} {k : String}
    (h : k ≠ AdminAuthJs.ADMIN_USER_KEY) : AdminAuthJs.setStoredAdminUser u st k = st k := by
  unfold AdminAuthJs.setStoredAdminUser
  cases u with
  | none => exact removeItem_other h
  | some v =>
    dsimp only
    split
    · exact setItem_other h
    · exact removeItem_other h

theorem AdminAuthJs.clearAdminAuth_other {st : Store} {k : String}
    (h1 : k ≠ AdminAuthJs.ADMIN_TOKEN_KEY) (h2 : k ≠ AdminAuthJs.ADMIN_USER_KEY) :
    AdminAuthJs.clearAdminAuth st k = st k := by
  unfold AdminAuthJs.clearAdminAuth
  rw [removeItem_other h2, removeItem_other h1]

/-- C6: the user storage namespace (auth_token, auth_user) and the admin storage
namespace (admin_auth_token, admin_auth_user) are disjoint; every admin session
operation (setAdminToken, setStoredAdminUser, clearAdminAuth, adminLogout) leaves
the user-namespace keys unchanged, and every user session operation (setToken,
setStoredUser, clearAuth, logout) leaves the admin-namespace keys unchanged. -/
theorem c6_storage_namespaces_disjoint :
    (AuthJs.TOKEN_KEY ≠ AdminAuthJs.ADMIN_TOKEN_KEY ∧
     AuthJs.TOKEN_KEY ≠ AdminAuthJs.ADMIN_USER_KEY ∧
     AuthJs.USER_KEY ≠ AdminAuthJs.ADMIN_TOKEN_KEY ∧
     AuthJs.USER_KEY ≠ AdminAuthJs.ADMIN_USER_KEY)
    ∧ ∀ (st : Store) (t : Option String) (u : Option Json) (k : String),
      ((k = AuthJs.TOKEN_KEY ∨ k = AuthJs.USER_KEY) →
        AdminAuthJs.setAdminToken t st k = st k ∧
        AdminAuthJs.setStoredAdminUser u st k = st k ∧
        AdminAuthJs.clearAdminAuth st k = st k ∧
        AdminAuthJs.adminLogoutStore st k = st k)
      ∧ ((k = AdminAuthJs.ADMIN_TOKEN_KEY ∨ k = AdminAuthJs.ADMIN_USER_KEY) →
        AuthJs.setToken t st k = st k ∧
        AuthJs.setStoredUser u st k = st k ∧
        AuthJs.clearAuth st k = st k ∧
        AuthJs.logoutStore st k = st k) := by
  refine ⟨⟨by decide, by decide, by decide, by decide⟩, ?_⟩
  intro st t u k
  constructor
  · intro hk
    have h1 : k ≠ AdminAuthJs.ADMIN_TOKEN_KEY := by
      rcases hk with h | h <;> subst h <;> decide
    have h2 : k ≠ AdminAuthJs.ADMIN_USER_KEY := by
      rcases hk with h | h <;> subst h <;> decide
    exact ⟨AdminAuthJs.setAdminToken_other h1, AdminAuthJs.setStoredAdminUser_other h2,
      AdminAuthJs.clearAdminAuth_other h1 h2, AdminAuthJs.clearAdminAuth_other h1 h2⟩
  · intro hk
    have h1 : k ≠ AuthJs.TOKEN_KEY := by
      rcases hk with h | h <;> subst h <;> decide
    have h2 : k ≠ AuthJs.USER_KEY := by
      rcases hk with h | h <;> subst h <;> decide
    exact ⟨AuthJs.setToken_other h1, AuthJs.setStoredUser_other h2,
      AuthJs.clearAuth_other h1 h2, AuthJs.clearAuth_other h1 h2⟩

theorem c6_storage_namespaces_disjoint_witness :
    AdminAuthJs.clearAdminAuth emptyStore "auth_token" = emptyStore "auth_token" ∧
    AuthJs.clearAuth emptyStore "admin_auth_user" = emptyStore "admin_auth_user" :=
  ⟨(((c6_storage_namespaces_disjoint).2 emptyStore none none "auth_token").1
      (Or.inl rfl)).2.2.1,
   (((c6_storage_namespaces_disjoint).2 emptyStore none none "admin_auth_user").2
      (Or.inr rfl)).2.2.1⟩

theorem jsonParse_empty : jsonParse "" = none := by rfl

/-- C7: token and cached-user storage round-trips. After setToken(t) with a
non-empty token t, getToken() returns t; after setStoredUser(u) with a
JSON-serializable truthy user object u, getStoredUser() returns u; after
clearAuth(), setToken(null), or setStoredUser(null), the getters return null. -/
theorem c7_storage_roundtrip :
    ∀ (st : Store) (t : String) (u : Json),
      (t ≠ "" → AuthJs.getToken (AuthJs.setToken (some t) st) = some t)
      ∧ (jsonParse (stringifyJson u) = some u → jsTruthy u = true →
          AuthJs.getStoredUser (AuthJs.setStoredUser (some u) st) = some u)
      ∧ AuthJs.getToken (AuthJs.clearAuth st) = none
      ∧ AuthJs.getStoredUser (AuthJs.clearAuth st) = none
      ∧ AuthJs.getToken (AuthJs.setToken none st) = none
      ∧ AuthJs.getStoredUser (AuthJs.setStoredUser none st) = none := by
  intro st t u
  refine ⟨?_, ?_, ?_, ?_, ?_, ?_⟩
  · intro ht
    have htr : truthyS (some t) = true := by
      simp [truthyS, ht]
    simp [AuthJs.getToken, AuthJs.setToken, htr, getItem, setItem, ht]
  · intro hparse htr
    have hraw : AuthJs.getStoredUser (AuthJs.setStoredUser (some u) st)
        = (if stringifyJson u = "" then none else jsonParse (stringifyJson u)) := by
      simp [AuthJs.getStoredUser, AuthJs.setStoredUser, htr, getItem, setItem]
    rw [hraw]
    by_cases hz : stringifyJson u = ""
    · rw [hz] at hparse
      rw [jsonParse_empty] at hparse
      exact absurd hparse (by simp)
    · simp [hz, hparse]
  · simp [AuthJs.getToken, AuthJs.clearAuth, getItem, removeItem]
  · simp [AuthJs.getStoredUser, AuthJs.clearAuth, getItem, removeItem]
  · simp [AuthJs.getToken, AuthJs.setToken, truthyS, getItem, removeItem]
  · simp [AuthJs.getStoredUser, AuthJs.setStoredUser, getItem, removeItem]

theorem c7_storage_roundtrip_witness :
    AuthJs.getToken (AuthJs.setToken (some "tok") emptyStore) = some "tok"
    ∧ AuthJs.getStoredUser (AuthJs.setStoredUser
        (some (Json.obj (JsonObj.cons "name" (Json.str "alice") JsonObj.nil))) emptyStore)
      = some (Json.obj (JsonObj.cons "name" (Json.str "alice") JsonObj.nil)) :=
  ⟨(c7_storage_roundtrip emptyStore "tok" Json.null).1 (by decide),
   (c7_storage_roundtrip emptyStore "tok"
      (Json.obj (JsonObj.cons "name" (Json.str "alice") JsonObj.nil))).2.1
      (by rfl) (by rfl)⟩

/-- First-occurrence lookup in a JS-object-like association list. -/
def lookupKV {α : Type} : List (String × α) → String → Option α
  | [], _ => none
  | (k, v) :: t, q => if k = q then some v else lookupKV t q

/-- JS object property assignment: replace the key's entry or append it. -/
def setKV {α : Type} : List (String × α) → String → α → List (String × α)
  | [], q, v => [(q, v)]
  | (k, w) :: t, q, v =>
    if k = q then (q, v) :: t else (k, w) :: setKV t q v

/-- JS object spread: apply every update entry over the base object. -/
def spreadKV {α : Type} (base upd : List (String × α)) : List (String × α) :=
  upd.foldl (fun acc p => setKV acc p.1 p.2) base

/-- Last-occurrence lookup: the value a JS spread of this list would leave at the key. -/
def lookupLastKV {α : Type} : List (String × α) → String → Option α
  | [], _ => none
  | p :: t, k =>
    match lookupLastKV t k with
    | some v => some v
    | none => if p.1 = k then some p.2 else none

theorem lookupKV_setKV_self {α : Type} (m : List (String × α)) (k : String) (v : α) :
    lookupKV (setKV m k v) k = some v := by
  induction m with
  | nil => simp [setKV, lookupKV]
  | cons p t ih =>
    obtain ⟨pk, pv⟩ := p
    by_cases h : pk = k
    · simp [setKV, lookupKV, h]
    · simp [setKV, lookupKV, h, ih]

theorem lookupKV_setKV_other {α : Type} (m : List (String × α)) {k q : String} (v : α)
    (h : q ≠ k) : lookupKV (setKV m k v) q = lookupKV m q := by
  induction m with
  | nil => simp [setKV, lookupKV, Ne.symm h]
  | cons p t ih =>
    obtain ⟨pk, pv⟩ := p
    by_cases hp : pk = k
    · subst hp
      simp [setKV, lookupKV, Ne.symm h]
    · by_cases hq : pk = q
      · subst hq
        simp [setKV, lookupKV, hp]
      · simp [setKV, lookupKV, hp, hq, ih]

theorem lookupKV_spreadKV {α : Type} (upd : List (String × α)) :
    ∀ (base : List (String × α)) (k : String),
      lookupKV (spreadKV base upd) k =
        match lookupLastKV upd k with
        | some v => some v
        | none => lookupKV base k := by
  induction upd with
  | nil => intro base k; simp [spreadKV, lookupLastKV]
  | cons p t ih =>
    intro base k
    have hstep : spreadKV base (p :: t) = spreadKV (setKV base p.1 p.2) t := by
      simp [spreadKV, List.foldl]
    rw [hstep, ih]
    cases hlast : lookupLastKV t k with
    | some v => simp [lookupLastKV, hlast]
    | none =>
      by_cases hk : p.1 = k
      · subst hk
        simp [lookupLastKV, hlast, lookupKV_setKV_self]
      · simp [lookupLastKV, hlast, hk, lookupKV_setKV_other _ _ (fun hh => hk hh.symm)]

/-- The caller-supplied portion of a fetch init object (the fields these wrappers read). -/
structure FetchOptions where
  method : Option String := none
  headers : List (String × String) := []
  credentials : Option String := none

/-- The request init the wrapper finally hands to fetch. -/
structure RequestInit where
  headers : List (String × String)
  credentials : Option String

namespace AuthJs

/-- auth.js authFetch: Content-Type base headers spread with the caller's, then
Authorization set from the stored user token when present; the fetch options put
credentials "include" before spreading the caller's options. -/
def authFetchInit (st : Store) (options : FetchOptions) : RequestInit :=
  let headers0 := spreadKV [("Content-Type", "application/json")] options.headers
  let headers1 :=
    match getToken st with
    | some t => setKV headers0 "Authorization" ("Bearer " ++ t)
    | none => headers0
  { headers := headers1,
    credentials := some ((options.credentials).getD "include") }

end AuthJs

namespace AdminAuthJs

/-- adminAuth.js adminAuthFetch: caller headers spread under a Content-Type entry,
then Authorization set from the stored admin token when present; credentials
"include" is the default the caller's options may override. -/
def adminAuthFetchInit (st : Store) (options : FetchOptions) : RequestInit :=
  let headers0 := setKV options.headers "Content-Type" "application/json"
  let headers1 :=
    match getAdminToken st with
    | some t => setKV headers0 "Authorization" ("Bearer " ++ t)
    | none => headers0
  { headers := headers1,
    credentials := some ((options.credentials).getD "include") }

end AdminAuthJs

/-- String.prototype.startsWith on Lean strings. -/
def strStarts (s pat : String) : Bool := charsStartWith s.data pat.data

namespace ApiJs

/-- api.js authorizedFetch's pathname extraction from an absolute or relative URL. -/
def extractPathname (url : String) : String :=
  if strStarts url "http://" || strStarts url "https://" then
    match subIdx "://".data url.data with
    | some i =>
      let afterProto := url.data.drop (i + 3)
      match subIdx "/".data afterProto with
      | some j => String.mk (afterProto.drop j)
      | none => "/"
    | none => ""
  else if strStarts url "/" then url
  else "/" ++ url

/-- api.js authorizedFetch: Content-Type set over the caller headers, the admin
token attached when the extracted pathname starts with /api/admin and the user
token otherwise (only when stored), credentials defaulting to "include". -/
def authorizedFetchInit (st : Store) (url : String) (options : FetchOptions) :
    RequestInit :=
  let headers0 := setKV options.headers "Content-Type" "application/json"
  let pathname := extractPathname url
  let headers1 :=
    if strStarts pathname "/api/admin" then
      match AdminAuthJs.getAdminToken st with
      | some t => setKV headers0 "Authorization" ("Bearer " ++ t)
      | none => headers0
    else
      match AuthJs.getToken st with
      | some t => setKV headers0 "Authorization" ("Bearer " ++ t)
      | none => headers0
  { headers := headers1,
    credentials := some ((options.credentials).getD "include") }

end ApiJs

/-- C1 counterexample: with default options, all three fetch wrappers (authFetch,
authorizedFetch, adminAuthFetch) pass credentials "include" to fetch, so cookie
inclusion is enabled, contradicting the claim that request options never enable
credential inclusion. -/
theorem c1_counterexample_credentials_include :
    (AuthJs.authFetchInit emptyStore ⟨none, [], none⟩).credentials = some "include"
    ∧ (ApiJs.authorizedFetchInit emptyStore "/api/events" ⟨none, [], none⟩).credentials
        = some "include"
    ∧ (AdminAuthJs.adminAuthFetchInit emptyStore ⟨none, [], none⟩).credentials
        = some "include" :=
  ⟨rfl, rfl, rfl⟩

/-- C1 amended: every request issued through the fetch wrappers carries the bearer
token only in the Authorization header sourced from local persistent storage, but
the wrappers default credentials to "include" (the caller's options may override
it), so cookie inclusion is enabled by default rather than disabled. -/
theorem c1_amended_bearer_header_default_include :
    ∀ (st : Store) (url : String) (options : FetchOptions),
      (AuthJs.authFetchInit st options).credentials
          = some ((options.credentials).getD "include")
      ∧ (ApiJs.authorizedFetchInit st url options).credentials
          = some ((options.credentials).getD "include")
      ∧ (AdminAuthJs.adminAuthFetchInit st options).credentials
          = some ((options.credentials).getD "include")
      ∧ (∀ t, AuthJs.getToken st = some t →
          lookupKV (AuthJs.authFetchInit st options).headers "Authorization"
            = some ("Bearer " ++ t))
      ∧ (∀ t, AdminAuthJs.getAdminToken st = some t →
          lookupKV (AdminAuthJs.adminAuthFetchInit st options).headers "Authorization"
            = some ("Bearer " ++ t)) := by
  intro st url options
  refine ⟨rfl, rfl, rfl, ?_, ?_⟩
  · intro t ht
    simp [AuthJs.authFetchInit, ht, lookupKV_setKV_self]
  · intro t ht
    simp [AdminAuthJs.adminAuthFetchInit, ht, lookupKV_setKV_self]

theorem c1_amended_bearer_header_default_include_witness :
    lookupKV (AuthJs.authFetchInit (setItem "auth_token" "ut" emptyStore)
        ⟨none, [], none⟩).headers "Authorization" = some ("Bearer " ++ "ut") :=
  (c1_amended_bearer_header_default_include
    (setItem "auth_token" "ut" emptyStore) "/api/auth/me" ⟨none, [], none⟩).2.2.2.1
    "ut" rfl

/-- C2: the fetch wrapper authorizedFetch attaches an Authorization Bearer header
exactly when the matching token is stored, choosing the admin token when the
extracted pathname starts with /api/admin and the user token otherwise; with no
stored token it adds no Authorization header (the caller's own headers pass
through). The auth.js authFetch wrapper likewise attaches the stored user token
exactly when present. -/
theorem c2_fetch_wrapper_token_selection :
    ∀ (st : Store) (url : String) (options : FetchOptions),
      ((strStarts (ApiJs.extractPathname url) "/api/admin" = true →
          (∀ t, AdminAuthJs.getAdminToken st = some t →
            lookupKV (ApiJs.authorizedFetchInit st url options).headers "Authorization"
              = some ("Bearer " ++ t))
          ∧ (AdminAuthJs.getAdminToken st = none →
            lookupKV (ApiJs.authorizedFetchInit st url options).headers "Authorization"
              = lookupKV options.headers "Authorization"))
        ∧ (strStarts (ApiJs.extractPathname url) "/api/admin" = false →
          (∀ t, AuthJs.getToken st = some t →
            lookupKV (ApiJs.authorizedFetchInit st url options).headers "Authorization"
              = some ("Bearer " ++ t))
          ∧ (AuthJs.getToken st = none →
            lookupKV (ApiJs.authorizedFetchInit st url options).headers "Authorization"
              = lookupKV options.headers "Authorization")))
      ∧ ((∀ t, AuthJs.getToken st = some t →
            lookupKV (AuthJs.authFetchInit st options).headers "Authorization"
              = some ("Bearer " ++ t))
        ∧ (AuthJs.getToken st = none →
            lookupKV (AuthJs.authFetchInit st options).headers "Authorization"
              = lookupLastKV options.headers "Authorization")) := by
  intro st url options
  have hct : ("Authorization" : String) ≠ "Content-Type" := by decide
  refine ⟨⟨?_, ?_⟩, ?_, ?_⟩
  · intro hpath
    constructor
    · intro t ht
      simp [ApiJs.authorizedFetchInit, hpath, ht, lookupKV_setKV_self]
    · intro ht
      simp [ApiJs.authorizedFetchInit, hpath, ht, lookupKV_setKV_other _ _ hct]
  · intro hpath
    constructor
    · intro t ht
      simp [ApiJs.authorizedFetchInit, hpath, ht, lookupKV_setKV_self]
    · intro ht
      simp [ApiJs.authorizedFetchInit, hpath, ht, lookupKV_setKV_other _ _ hct]
  · intro t ht
    simp [AuthJs.authFetchInit, ht, lookupKV_setKV_self]
  · intro ht
    have hspread := lookupKV_spreadKV options.headers
      [("Content-Type", "application/json")] "Authorization"
    simp [AuthJs.authFetchInit, ht]
    rw [hspread]
    cases hlast : lookupLastKV options.headers "Authorization" with
    | some v => simp
    | none => simp [lookupKV, hct]

theorem c2_fetch_wrapper_token_selection_witness :
    lookupKV (ApiJs.authorizedFetchInit
        (setItem "admin_auth_token" "at" (setItem "auth_token" "ut" emptyStore))
        "/api/admin/auth/me" ⟨none, [], none⟩).headers "Authorization"
      = some ("Bearer " ++ "at")
    ∧ lookupKV (ApiJs.authorizedFetchInit
        (setItem "admin_auth_token" "at" (setItem "auth_token" "ut" emptyStore))
        "/api/questions" ⟨none, [], none⟩).headers "Authorization"
      = some ("Bearer " ++ "ut") :=
  ⟨((c2_fetch_wrapper_token_selection
      (setItem "admin_auth_token" "at" (setItem "auth_token" "ut" emptyStore))
      "/api/admin/auth/me" ⟨none, [], none⟩).1.1 rfl).1 "at" rfl,
   ((c2_fetch_wrapper_token_selection
      (setItem "admin_auth_token" "at" (setItem "auth_token" "ut" emptyStore))
      "/api/questions" ⟨none, [], none⟩).1.2 rfl).1 "ut" rfl⟩

/-- The Vite environment surface these config modules read (import.meta.env). -/
structure Env where
  VITE_BACKEND_URL : Option String := none
  VITE_API_BASE_URL : Option String := none
  VITE_SOCKET_URL : Option String := none
  MODE : Option String := none
  PROD : Bool := false

namespace ApiJs

/-- api.js defaultBase: same-origin sentinel for REST URLs. -/
def defaultBase : String := ""

/-- api.js getApiBaseUrl: VITE_API_BASE_URL or the same-origin sentinel. -/
def getApiBaseUrl (env : Env) : String :=
  let base := (env.VITE_API_BASE_URL).getD defaultBase
  if base != "" then base else defaultBase

/-- api.js getSocketUrl: VITE_SOCKET_URL or the same-origin default socket. -/
def getSocketUrl (env : Env) (defaultSocket : String) : String :=
  let base := (env.VITE_SOCKET_URL).getD defaultSocket
  if base != "" then base else defaultSocket

end ApiJs

namespace Part010

/-- The backend URL hardcoded in part_010's production fallback branch. -/
def productionBackendUrl : String :=
  "https://kavia-alb-fa100ecf-1245176832.backend.kavia.app"

/-- part_010 getApiBaseUrl: VITE_BACKEND_URL falling back to VITE_API_BASE_URL;
with neither set, a hardcoded backend URL in production mode, else same-origin. -/
def getApiBaseUrl (env : Env) : String :=
  let backendUrl := orS env.VITE_BACKEND_URL env.VITE_API_BASE_URL
  if truthyS backendUrl then backendUrl.getD ""
  else if env.MODE = some "production" ∨ env.PROD = true then productionBackendUrl
  else ""

end Part010

namespace Part008

/-- part_008 stripTrailingSlash. -/
def stripTrailingSlash (url : String) : String :=
  if url.endsWith "/" then url.dropRight 1 else url

/-- part_008 getBackendUrl: trimmed VITE_BACKEND_URL (slash-stripped) or same-origin. -/
def getBackendUrl (env : Env) (origin : String) : String :=
  let envUrl := (env.VITE_BACKEND_URL).map String.trim
  if truthyS envUrl then stripTrailingSlash (envUrl.getD "")
  else origin

/-- part_008 getSocketUrl: VITE_SOCKET_URL, then VITE_BACKEND_URL, then same-origin. -/
def getSocketUrl (env : Env) (origin : String) : String :=
  let socketEnv := (env.VITE_SOCKET_URL).map String.trim
  if truthyS socketEnv then stripTrailingSlash (socketEnv.getD "")
  else
    let backend := (env.VITE_BACKEND_URL).map String.trim
    if truthyS backend then stripTrailingSlash (backend.getD "")
    else origin

end Part008

namespace SpecModel

/-- Spec-side description of api.js REST base resolution: the configured
VITE_API_BASE_URL when set non-empty, otherwise the same-origin sentinel. -/
def restBaseUrlApiJs (env : Env) : String :=
  match env.VITE_API_BASE_URL with
  | some v => if v = "" then "" else v
  | none => ""

/-- Spec-side description of part_010 REST base resolution: the configured
environment variable when one is set non-empty, otherwise a hardcoded backend
URL in production mode, otherwise the same-origin sentinel. -/
def restBaseUrlPart010 (env : Env) : String :=
  let fromApiBase : Option String :=
    match env.VITE_API_BASE_URL with
    | some a => if a = "" then none else some a
    | none => none
  let chosen : Option String :=
    match env.VITE_BACKEND_URL with
    | some b => if b = "" then fromApiBase else some b
    | none => fromApiBase
  match chosen with
  | some v => v
  | none =>
    if env.MODE = some "production" ∨ env.PROD = true then Part010.productionBackendUrl
    else ""

/-- Spec-side description of part_008 REST base resolution. -/
def backendUrlPart008 (env : Env) (origin : String) : String :=
  match env.VITE_BACKEND_URL with
  | some u => if u.trim = "" then origin else Part008.stripTrailingSlash u.trim
  | none => origin

/-- Spec-side description of api.js socket resolution: VITE_SOCKET_URL when set
non-empty, otherwise same-origin. -/
def socketUrlApiJs (env : Env) (origin : String) : String :=
  match env.VITE_SOCKET_URL with
  | some v => if v = "" then origin else v
  | none => origin

/-- Spec-side fallback of part_008 socket resolution after VITE_SOCKET_URL. -/
def socketFallbackPart008 (env : Env) (origin : String) : String :=
  match env.VITE_BACKEND_URL with
  | some b => if b.trim = "" then origin else Part008.stripTrailingSlash b.trim
  | none => origin

/-- Spec-side description of part_008 socket resolution: VITE_SOCKET_URL, then
VITE_BACKEND_URL, then same-origin. -/
def socketUrlPart008 (env : Env) (origin : String) : String :=
  match env.VITE_SOCKET_URL with
  | some s =>
    if s.trim = "" then socketFallbackPart008 env origin
    else Part008.stripTrailingSlash s.trim
  | none => socketFallbackPart008 env origin

end SpecModel

/-- C5 counterexample: in production mode with no environment variable set,
part_010's getApiBaseUrl returns a hardcoded backend URL, which is neither a
configured environment value nor the same-origin value. -/
theorem c5_counterexample_hardcoded_production_url :
    Part010.getApiBaseUrl ⟨none, none, none, some "production", true⟩
      = "https://kavia-alb-fa100ecf-1245176832.backend.kavia.app"
    ∧ Part010.getApiBaseUrl ⟨none, none, none, some "production", true⟩ ≠ "" := by
  refine ⟨rfl, ?_⟩
  intro h
  exact absurd h (by decide)

/-- C5 amended: api.js resolves the REST base to VITE_API_BASE_URL when set
non-empty and same-origin otherwise; part_008 resolves it to the trimmed,
slash-stripped VITE_BACKEND_URL when non-blank and same-origin otherwise; and
part_010 resolves VITE_BACKEND_URL falling back to VITE_API_BASE_URL, but with
neither set returns a hardcoded backend URL in production mode before the
same-origin fallback. The socket URL resolves VITE_SOCKET_URL, then (in
part_008) VITE_BACKEND_URL, then same-origin; api.js's socket resolution reads
only VITE_SOCKET_URL before the same-origin fallback. -/
theorem c5_amended_base_url_resolution :
    ∀ (env : Env) (origin : String),
      ApiJs.getApiBaseUrl env = SpecModel.restBaseUrlApiJs env
      ∧ Part010.getApiBaseUrl env = SpecModel.restBaseUrlPart010 env
      ∧ Part008.getBackendUrl env origin = SpecModel.backendUrlPart008 env origin
      ∧ ApiJs.getSocketUrl env origin = SpecModel.socketUrlApiJs env origin
      ∧ Part008.getSocketUrl env origin = SpecModel.socketUrlPart008 env origin := by
  intro env origin
  refine ⟨?_, ?_, ?_, ?_, ?_⟩
  · cases hv : env.VITE_API_BASE_URL with
    | none => simp [ApiJs.getApiBaseUrl, ApiJs.defaultBase, SpecModel.restBaseUrlApiJs, hv]
    | some v =>
      by_cases he : v = ""
      · simp [ApiJs.getApiBaseUrl, ApiJs.defaultBase, SpecModel.restBaseUrlApiJs, hv, he]
      · simp [ApiJs.getApiBaseUrl, ApiJs.defaultBase, SpecModel.restBaseUrlApiJs, hv, he]
  · cases hb : env.VITE_BACKEND_URL with
    | none =>
      cases ha : env.VITE_API_BASE_URL with
      | none => simp [Part010.getApiBaseUrl, SpecModel.restBaseUrlPart010, hb, ha, orS, truthyS]
      | some a =>
        by_cases hae : a = "" <;>
          simp [Part010.getApiBaseUrl, SpecModel.restBaseUrlPart010, hb, ha, hae, orS, truthyS]
    | some b =>
      by_cases hbe : b = ""
      · cases ha : env.VITE_API_BASE_URL with
        | none =>
          simp [Part010.getApiBaseUrl, SpecModel.restBaseUrlPart010, hb, ha, hbe, orS, truthyS]
        | some a =>
          by_cases hae : a = "" <;>
            simp [Part010.getApiBaseUrl, SpecModel.restBaseUrlPart010, hb, ha, hbe, hae, orS, truthyS]
      · simp [Part010.getApiBaseUrl, SpecModel.restBaseUrlPart010, hb, hbe, orS, truthyS]
  · cases hb : env.VITE_BACKEND_URL with
    | none => simp [Part008.getBackendUrl, SpecModel.backendUrlPart008, hb, truthyS]
    | some u =>
      by_cases he : u.trim = "" <;>
        simp [Part008.getBackendUrl, SpecModel.backendUrlPart008, hb, he, truthyS]
  · cases hv : env.VITE_SOCKET_URL with
    | none => simp [ApiJs.getSocketUrl, SpecModel.socketUrlApiJs, hv]
    | some v =>
      by_cases he : v = "" <;>
        simp [ApiJs.getSocketUrl, SpecModel.socketUrlApiJs, hv, he]
  · cases hs : env.VITE_SOCKET_URL with
    | none =>
      cases hb : env.VITE_BACKEND_URL with
      | none =>
        simp [Part008.getSocketUrl, SpecModel.socketUrlPart008, SpecModel.socketFallbackPart008,
          hs, hb, truthyS]
      | some b =>
        by_cases hbe : b.trim = "" <;>
          simp [Part008.getSocketUrl, SpecModel.socketUrlPart008, SpecModel.socketFallbackPart008,
            hs, hb, hbe, truthyS]
    | some s =>
      by_cases hse : s.trim = ""
      · cases hb : env.VITE_BACKEND_URL with
        | none =>
          simp [Part008.getSocketUrl, SpecModel.socketUrlPart008, SpecModel.socketFallbackPart008,
            hs, hb, hse, truthyS]
        | some b =>
          by_cases hbe : b.trim = "" <;>
            simp [Part008.getSocketUrl, SpecModel.socketUrlPart008, SpecModel.socketFallbackPart008,
              hs, hb, hse, hbe, truthyS]
      · simp [Part008.getSocketUrl, SpecModel.socketUrlPart008, SpecModel.socketFallbackPart008,
          hs, hse, truthyS]

/-- An HTTP response as these handlers observe it: ok flag, status code, body
text (res.text()), whose JSON parse models res.json(), and the content type. -/
structure Response where
  ok : Bool
  status : Nat
  body : String
  contentType : String := ""

/-- JS `data.key || ...` scrutinee: the field when present and truthy, else none. -/
def truthyField (j : Json) (key : String) : Option Json :=
  match getField j key with
  | some v => if jsTruthy v then some v else none
  | none => none

namespace AuthJs

/-- The `errorData.message || errorData.error || errorMessage` chain of
auth.js login/signup, with the JS string conversion an Error applies. -/
def pickedMessage (errorData : Json) (defaultMsg : String) : String :=
  match truthyField errorData "message" with
  | some m => jsString m
  | none =>
    match truthyField errorData "error" with
    | some e => jsString e
    | none => defaultMsg

/-- The shared non-ok branch of auth.js login/signup: fields of the parsed JSON
body when it parses, else the raw text when non-empty, else the default. -/
def authCallErrorMessage (defaultMsg : String) (res : Response) : String :=
  match jsonParse res.body with
  | some errorData => pickedMessage errorData defaultMsg
  | none => if res.body != "" then res.body else defaultMsg

/-- auth.js signup's thrown message on a non-ok response. -/
def signupErrorMessage (res : Response) : String :=
  authCallErrorMessage ("Signup failed: " ++ toString res.status) res

/-- auth.js login's thrown message on a non-ok response. -/
def loginErrorMessage (res : Response) : String :=
  authCallErrorMessage ("Login failed: " ++ toString res.status) res

/-- What an auth call site can throw: the Error it builds in its non-ok
branch, or the rejection of the unguarded `await res.json()` on an ok response
whose body is not parseable JSON (a SyntaxError the call site never catches). -/
inductive AuthCallError where
  | httpError (message : String)
  | jsonSyntaxError
deriving DecidableEq

/-- auth.js signup's response handling: throw the derived message on non-ok;
on ok, `await res.json()` unguarded - the parsed data when the body parses,
the propagated SyntaxError rejection otherwise. -/
def signupHandle (res : Response) : Except AuthCallError Json :=
  if res.ok then
    match jsonParse res.body with
    | some data => Except.ok data
    | none => Except.error AuthCallError.jsonSyntaxError
  else Except.error (AuthCallError.httpError (signupErrorMessage res))

/-- auth.js login's response handling: throw the derived message on non-ok;
on ok, `await res.json()` unguarded - the parsed data when the body parses,
the propagated SyntaxError rejection otherwise. -/
def loginHandle (res : Response) : Except AuthCallError Json :=
  if res.ok then
    match jsonParse res.body with
    | some data => Except.ok data
    | none => Except.error AuthCallError.jsonSyntaxError
  else Except.error (AuthCallError.httpError (loginErrorMessage res))

end AuthJs

/-- The payload part_000's handleJson extracts before deciding to throw. -/
inductive HPayload where
  | jsonVal (j : Json)
  | textVal (s : String)
  | nullVal
deriving DecidableEq

/-- The error object part_000's handleJson throws on a non-ok response. -/
structure HandleErr where
  message : String
  status : Nat
  payload : HPayload
deriving DecidableEq

namespace Part000

/-- part_000 handleJson's payload: the parsed JSON body under a JSON content
type (null when parsing fails), the raw text otherwise. -/
def responsePayload (res : Response) : HPayload :=
  if containsSub res.contentType "application/json" then
    match jsonParse res.body with
    | some j => HPayload.jsonVal j
    | none => HPayload.nullVal
  else HPayload.textVal res.body

/-- part_000 handleJson: throw `Request failed with <status>` carrying status
and payload on a non-ok response, else return the payload. -/
def handleJson (res : Response) : Except HandleErr HPayload :=
  let payload := responsePayload res
  if !res.ok then
    Except.error ⟨"Request failed with " ++ toString res.status, res.status, payload⟩
  else Except.ok payload

end Part000

/-- C3 counterexample: the claimed message priority fails on the code. For a
non-ok response whose JSON body parses but has no message/error field, login
uses the default status message rather than the non-empty raw text; and
handleJson throws `Request failed with 500` even though the JSON body's message
field is present and says "boom". -/
theorem c3_counterexample_message_priority :
    (AuthJs.loginErrorMessage ⟨false, 400, "\x7b\x7d", "application/json"⟩
        = "Login failed: 400"
      ∧ ("\x7b\x7d" : String) ≠ ""
      ∧ ("Login failed: 400" : String) ≠ "\x7b\x7d")
    ∧ (Part000.handleJson ⟨false, 500, "\x7b\"message\":\"boom\"\x7d", "application/json"⟩
        = Except.error ⟨"Request failed with 500", 500,
            HPayload.jsonVal (Json.obj (JsonObj.cons "message" (Json.str "boom") JsonObj.nil))⟩
      ∧ truthyField (Json.obj (JsonObj.cons "message" (Json.str "boom") JsonObj.nil)) "message"
          = some (Json.str "boom")
      ∧ ("Request failed with 500" : String) ≠ "boom") :=
  ⟨⟨rfl, by decide, by decide⟩, ⟨rfl, rfl, by decide⟩⟩

/-- C3 amended: on every non-ok response login, signup and handleJson throw;
login and signup derive the thrown message as the JSON body's truthy message
field, else its truthy error field, else — only when the body is not parseable
JSON — the raw text when non-empty, else a default containing the status code;
handleJson always throws the message `Request failed with <status>`, carrying
the status and parsed payload. On an ok response the error handlers throw
nothing: handleJson returns the payload (its res.json() is guarded, falling
back to null) and login/signup return the parsed data — their only ok-path
throw is the propagated rejection of the unguarded `await res.json()` when the
ok body is not parseable JSON. -/
theorem c3_amended_error_throwing_and_messages :
    ∀ (res : Response) (d m e : Json),
      (res.ok = true → jsonParse res.body = some d →
        AuthJs.loginHandle res = Except.ok d
        ∧ AuthJs.signupHandle res = Except.ok d)
      ∧ (res.ok = true → jsonParse res.body = none →
        AuthJs.loginHandle res = Except.error AuthJs.AuthCallError.jsonSyntaxError
        ∧ AuthJs.signupHandle res = Except.error AuthJs.AuthCallError.jsonSyntaxError)
      ∧ (res.ok = true → ∃ p, Part000.handleJson res = Except.ok p)
      ∧ (res.ok = false →
        AuthJs.loginHandle res
          = Except.error (AuthJs.AuthCallError.httpError (AuthJs.loginErrorMessage res))
        ∧ AuthJs.signupHandle res
          = Except.error (AuthJs.AuthCallError.httpError (AuthJs.signupErrorMessage res))
        ∧ Part000.handleJson res = Except.error
            ⟨"Request failed with " ++ toString res.status, res.status,
              Part000.responsePayload res⟩)
      ∧ (jsonParse res.body = some d → truthyField d "message" = some m →
        AuthJs.loginErrorMessage res = jsString m
        ∧ AuthJs.signupErrorMessage res = jsString m)
      ∧ (jsonParse res.body = some d → truthyField d "message" = none →
          truthyField d "error" = some e →
        AuthJs.loginErrorMessage res = jsString e
        ∧ AuthJs.signupErrorMessage res = jsString e)
      ∧ (jsonParse res.body = some d → truthyField d "message" = none →
          truthyField d "error" = none →
        AuthJs.loginErrorMessage res = "Login failed: " ++ toString res.status
        ∧ AuthJs.signupErrorMessage res = "Signup failed: " ++ toString res.status)
      ∧ (jsonParse res.body = none → res.body ≠ "" →
        AuthJs.loginErrorMessage res = res.body
        ∧ AuthJs.signupErrorMessage res = res.body)
      ∧ (jsonParse res.body = none → res.body = "" →
        AuthJs.loginErrorMessage res = "Login failed: " ++ toString res.status
        ∧ AuthJs.signupErrorMessage res = "Signup failed: " ++ toString res.status) := by
  intro res d m e
  refine ⟨?_, ?_, ?_, ?_, ?_, ?_, ?_, ?_, ?_⟩
  · intro hok hd
    exact ⟨by simp [AuthJs.loginHandle, hok, hd], by simp [AuthJs.signupHandle, hok, hd]⟩
  · intro hok hd
    exact ⟨by simp [AuthJs.loginHandle, hok, hd], by simp [AuthJs.signupHandle, hok, hd]⟩
  · intro hok
    exact ⟨Part000.responsePayload res, by simp [Part000.handleJson, hok]⟩
  · intro hok
    exact ⟨by simp [AuthJs.loginHandle, hok], by simp [AuthJs.signupHandle, hok],
      by simp [Part000.handleJson, hok]⟩
  · intro hd hm
    constructor <;>
      simp [AuthJs.loginErrorMessage, AuthJs.signupErrorMessage,
        AuthJs.authCallErrorMessage, AuthJs.pickedMessage, hd, hm]
  · intro hd hm he
    constructor <;>
      simp [AuthJs.loginErrorMessage, AuthJs.signupErrorMessage,
        AuthJs.authCallErrorMessage, AuthJs.pickedMessage, hd, hm, he]
  · intro hd hm he
    constructor <;>
      simp [AuthJs.loginErrorMessage, AuthJs.signupErrorMessage,
        AuthJs.authCallErrorMessage, AuthJs.pickedMessage, hd, hm, he]
  · intro hd hb
    constructor <;>
      simp [AuthJs.loginErrorMessage, AuthJs.signupErrorMessage,
        AuthJs.authCallErrorMessage, hd, hb]
  · intro hd hb
    constructor <;>
      simp [AuthJs.loginErrorMessage, AuthJs.signupErrorMessage,
        AuthJs.authCallErrorMessage, hd, hb, jsonParse_empty]

theorem c3_amended_error_throwing_and_messages_witness :
    AuthJs.loginErrorMessage ⟨false, 401, "\x7b\"message\":\"boom\"\x7d", ""⟩ = "boom" :=
  ((c3_amended_error_throwing_and_messages
      ⟨false, 401, "\x7b\"message\":\"boom\"\x7d", ""⟩
      (Json.obj (JsonObj.cons "message" (Json.str "boom") JsonObj.nil))
      (Json.str "boom") Json.null).2.2.2.2.1 rfl rfl).1

namespace RouterJs

/-- What the guard finally renders for the route. -/
inductive RouteRender where
  | redirect
  | children
deriving DecidableEq

/-- The awaited /api/auth/me branch of ProtectedRoute when no cached user is
used: store the fetched user on success; clear the session and redirect on
failure. `me` is the outcome of getCurrentUser (none when it rejects). -/
def protectedAwait (st : Store) (me : Option Json) : Store × RouteRender :=
  match me with
  | some u => (AuthJs.setStoredUser (some u) st, RouteRender.children)
  | none => (AuthJs.clearAuth st, RouteRender.redirect)

/-- part_009 ProtectedRoute, as the storage state and final render it settles
on: no token redirects immediately; with a truthy cached user the content is
rendered and the background refresh stores the fetched user on success and
ignores failure; otherwise the awaited /me check decides. -/
def ProtectedRoute (st : Store) (me : Option Json) : Store × RouteRender :=
  match AuthJs.getToken st with
  | none => (st, RouteRender.redirect)
  | some _ =>
    match AuthJs.getStoredUser st with
    | some cached =>
      if jsTruthy cached then
        match me with
        | some u => (AuthJs.setStoredUser (some u) st, RouteRender.children)
        | none => (st, RouteRender.children)
      else protectedAwait st me
    | none => protectedAwait st me

/-- A storage state holding a token and a cached user object. -/
def cachedSessionStore : Store :=
  setItem "auth_user" "\x7b\"a\":1\x7d" (setItem "auth_token" "tok" emptyStore)

end RouterJs

/-- C4 counterexample: with a token and a cached user stored, a rejecting
GET /api/auth/me check neither clears the session nor redirects — the guard
renders the protected content and both storage keys keep their values — so a
failing token validation does not always clear and redirect as claimed. -/
theorem c4_counterexample_cached_user_not_cleared :
    (RouterJs.ProtectedRoute RouterJs.cachedSessionStore none).2
        = RouterJs.RouteRender.children
    ∧ (RouterJs.ProtectedRoute RouterJs.cachedSessionStore none).1 "auth_token"
        = some "tok"
    ∧ (RouterJs.ProtectedRoute RouterJs.cachedSessionStore none).1 "auth_user"
        = some "\x7b\"a\":1\x7d" :=
  ⟨rfl, rfl, rfl⟩

/-- C4 amended: when a stored token fails the /api/auth/me validation and no
truthy cached user is available, the stored token and user are both cleared and
the route redirects to the login view; with a truthy cached user the route
renders the protected content and ignores the failed background refresh; a
request with a present, valid token is never redirected; with no token the
route redirects. -/
theorem c4_amended_token_validation_redirect :
    ∀ (st : Store) (me : Option Json),
      ((∃ t, AuthJs.getToken st = some t) → AuthJs.getStoredUser st = none → me = none →
        (RouterJs.ProtectedRoute st me).1 "auth_token" = none
        ∧ (RouterJs.ProtectedRoute st me).1 "auth_user" = none
        ∧ (RouterJs.ProtectedRoute st me).2 = RouterJs.RouteRender.redirect)
      ∧ ((∃ t, AuthJs.getToken st = some t) → me ≠ none →
        (RouterJs.ProtectedRoute st me).2 = RouterJs.RouteRender.children)
      ∧ ((∃ t, AuthJs.getToken st = some t) →
          (∃ c, AuthJs.getStoredUser st = some c ∧ jsTruthy c = true) →
        (RouterJs.ProtectedRoute st me).2 = RouterJs.RouteRender.children)
      ∧ (AuthJs.getToken st = none →
        (RouterJs.ProtectedRoute st me).2 = RouterJs.RouteRender.redirect) := by
  intro st me
  refine ⟨?_, ?_, ?_, ?_⟩
  · rintro ⟨t, ht⟩ hu hme
    subst hme
    have hred : RouterJs.ProtectedRoute st none
        = (AuthJs.clearAuth st, RouterJs.RouteRender.redirect) := by
      simp [RouterJs.ProtectedRoute, ht, hu, RouterJs.protectedAwait]
    rw [hred]
    exact ⟨rfl, rfl, rfl⟩
  · rintro ⟨t, ht⟩ hme
    cases me with
    | none => exact absurd rfl hme
    | some u =>
      cases hu : AuthJs.getStoredUser st with
      | none => simp [RouterJs.ProtectedRoute, ht, hu, RouterJs.protectedAwait]
      | some c =>
        by_cases hc : jsTruthy c <;>
          simp [RouterJs.ProtectedRoute, ht, hu, hc, RouterJs.protectedAwait]
  · rintro ⟨t, ht⟩ ⟨c, hc, hct⟩
    cases me with
    | none => simp [RouterJs.ProtectedRoute, ht, hc, hct]
    | some u => simp [RouterJs.ProtectedRoute, ht, hc, hct]
  · intro ht
    simp [RouterJs.ProtectedRoute, ht]

theorem c4_amended_token_validation_redirect_witness :
    (RouterJs.ProtectedRoute (setItem "auth_token" "tok" emptyStore) none).1 "auth_token"
        = none
    ∧ (RouterJs.ProtectedRoute (setItem "auth_token" "tok" emptyStore) none).2
        = RouterJs.RouteRender.redirect := by
  have hex : ∃ t, AuthJs.getToken (setItem "auth_token" "tok" emptyStore) = some t :=
    ⟨"tok", rfl⟩
  have h := (c4_amended_token_validation_redirect
    (setItem "auth_token" "tok" emptyStore) none).1 hex rfl rfl
  exact ⟨h.1, h.2.2⟩

/-- Sum of the `len` values of the list starting at index `lo` (0 out of range):
the window sums the moving average is specified against. -/
def sumFrom (vals : List ℚ) (lo : Nat) : Nat → ℚ
  | 0 => 0
  | len + 1 => sumFrom vals lo len + vals.getD (lo + len) 0

theorem sumFrom_head (vals : List ℚ) (lo : Nat) :
    ∀ len, sumFrom vals lo (len + 1) = vals.getD lo 0 + sumFrom vals (lo + 1) len := by
  intro len
  induction len with
  | zero => simp [sumFrom]
  | succ n ih =>
    have e : lo + (n + 1) = lo + 1 + n := by omega
    calc sumFrom vals lo (n + 1 + 1)
        = sumFrom vals lo (n + 1) + vals.getD (lo + (n + 1)) 0 := rfl
      _ = vals.getD lo 0 + sumFrom vals (lo + 1) n + vals.getD (lo + 1 + n) 0 := by
          rw [ih, e]
      _ = vals.getD lo 0 + sumFrom vals (lo + 1) (n + 1) := by
          rw [sumFrom]; ring

/-- The loop of format.js computeMovingAverage: iterate with the running sum,
adding the current value, subtracting the value falling out of the window once
`i >= window`, and emitting `sum / window` from index `window - 1` on. The
running-sum update is written inline in both places it occurs. -/
def smaAux (vals : List ℚ) (w : Nat) : List ℚ → Nat → ℚ → List (Option ℚ)
  | [], _, _ => []
  | v :: rest, i, sum =>
    (if w - 1 ≤ i then
        some ((if w ≤ i then sum + v - vals.getD (i - w) 0 else sum + v) / (w : ℚ))
      else none)
      :: smaAux vals w rest (i + 1)
          (if w ≤ i then sum + v - vals.getD (i - w) 0 else sum + v)

namespace FormatJs

/-- format.js computeMovingAverage: the accessor values unchanged when the
array is empty or the window is at most 1, otherwise the running-sum loop over
the accessor values starting at index 0 with sum 0. -/
def computeMovingAverage {α : Type} (arr : List α) (accessor : α → ℚ)
    (window : Nat) : List (Option ℚ) :=
  if arr.length = 0 ∨ window ≤ 1 then arr.map (fun v => some (accessor v))
  else smaAux (arr.map accessor) window (arr.map accessor) 0 0

end FormatJs

theorem smaAux_spec (vals : List ℚ) (w : Nat) (hw : 2 ≤ w) :
    ∀ (rest : List ℚ) (i : Nat) (sum : ℚ),
      rest = vals.drop i →
      sum = sumFrom vals (i - min i w) (min i w) →
      (smaAux vals w rest i sum).length = rest.length
      ∧ ∀ k, k < rest.length →
          (smaAux vals w rest i sum).getD k none =
            (if w - 1 ≤ i + k
              then some (sumFrom vals (i + k + 1 - w) w / (w : ℚ))
              else none) := by
  intro rest
  induction rest with
  | nil =>
    intro i sum _ _
    exact ⟨rfl, fun k hk => absurd hk (by simp)⟩
  | cons v t ih =>
    intro i sum hrest hsum
    have hv : vals.getD i 0 = v := by
      have h1 := List.getElem?_drop vals i 0
      rw [← hrest] at h1
      simp only [List.getElem?_cons_zero, Nat.add_zero] at h1
      rw [List.getD_eq_getElem?_getD, ← h1]
      rfl
    have ht : t = vals.drop (i + 1) := by
      have h1 : vals.drop (i + 1) = (vals.drop i).drop 1 := by
        rw [List.drop_drop]
      rw [h1, ← hrest]
      simp
    have hsum2 : (if w ≤ i then sum + v - vals.getD (i - w) 0 else sum + v)
        = sumFrom vals (i + 1 - min (i + 1) w) (min (i + 1) w) := by
      by_cases hwi : w ≤ i
      · have hmin1 : min i w = w := min_eq_right hwi
        have hmin2 : min (i + 1) w = w := min_eq_right (by omega)
        rw [if_pos hwi, hmin2, hsum, hmin1]
        have e1 : sumFrom vals (i - w) (w + 1)
            = sumFrom vals (i - w) w + vals.getD ((i - w) + w) 0 := rfl
        have e2 : sumFrom vals (i - w) (w + 1)
            = vals.getD (i - w) 0 + sumFrom vals ((i - w) + 1) w :=
          sumFrom_head vals (i - w) w
        have e3 : (i - w) + w = i := by omega
        have e4 : (i - w) + 1 = i + 1 - w := by omega
        rw [e3, hv] at e1
        rw [e4] at e2
        have hi2 : i - (i - w) = w := by omega
        linarith [e1, e2]
      · have hmin1 : min i w = i := min_eq_left (by omega)
        have hmin2 : min (i + 1) w = i + 1 := min_eq_left (by omega)
        rw [if_neg hwi, hmin2, hsum, hmin1]
        have e0 : i - i = 0 := by omega
        have e1 : i + 1 - (i + 1) = 0 := by omega
        rw [e0, e1]
        have e2 : sumFrom vals 0 (i + 1) = sumFrom vals 0 i + vals.getD (0 + i) 0 := rfl
        rw [e2, Nat.zero_add, hv]
    obtain ⟨ihlen, ihget⟩ := ih (i + 1)
      (if w ≤ i then sum + v - vals.getD (i - w) 0 else sum + v) ht hsum2
    constructor
    · show (_ :: smaAux vals w t (i + 1)
          (if w ≤ i then sum + v - vals.getD (i - w) 0 else sum + v)).length
        = (v :: t).length
      rw [List.length_cons, List.length_cons, ihlen]
    · intro k hk
      cases k with
      | zero =>
        rw [show smaAux vals w (v :: t) i sum =
            (if w - 1 ≤ i then
                some ((if w ≤ i then sum + v - vals.getD (i - w) 0 else sum + v) / (w : ℚ))
              else none)
              :: smaAux vals w t (i + 1)
                  (if w ≤ i then sum + v - vals.getD (i - w) 0 else sum + v) from rfl]
        rw [List.getD_cons_zero]
        by_cases hwi1 : w - 1 ≤ i
        · rw [if_pos hwi1, if_pos (by omega : w - 1 ≤ i + 0)]
          have hmin2 : min (i + 1) w = w := min_eq_right (by omega)
          rw [hsum2, hmin2]
        · rw [if_neg hwi1, if_neg (by omega : ¬ w - 1 ≤ i + 0)]
      | succ k0 =>
        have hk0 : k0 < t.length := by
          simp only [List.length_cons] at hk
          omega
        have h2 := ihget k0 hk0
        have e : i + 1 + k0 = i + (k0 + 1) := by omega
        rw [e] at h2
        rw [show smaAux vals w (v :: t) i sum =
            (if w - 1 ≤ i then
                some ((if w ≤ i then sum + v - vals.getD (i - w) 0 else sum + v) / (w : ℚ))
              else none)
              :: smaAux vals w t (i + 1)
                  (if w ≤ i then sum + v - vals.getD (i - w) 0 else sum + v) from rfl]
        rw [List.getD_cons_succ]
        exact h2

/-- C8: computeMovingAverage returns an array of the input's length; with an
integer window of at least 2 the entry at index i is null for i < window-1 and
for i >= window-1 equals the arithmetic mean (the window sum divided by the
window) of the accessor values at indices i-window+1 through i; with window at
most 1 it returns the accessor values unchanged. -/
theorem c8_computeMovingAverage_windowed_mean {α : Type}
    (arr : List α) (accessor : α → ℚ) (window : Nat) :
    (FormatJs.computeMovingAverage arr accessor window).length = arr.length
    ∧ (window ≤ 1 →
        FormatJs.computeMovingAverage arr accessor window
          = arr.map (fun v => some (accessor v)))
    ∧ (2 ≤ window → ∀ i, i < arr.length →
        (i < window - 1 →
          (FormatJs.computeMovingAverage arr accessor window).getD i none = none)
        ∧ (window - 1 ≤ i →
          (FormatJs.computeMovingAverage arr accessor window).getD i none
            = some (sumFrom (arr.map accessor) (i + 1 - window) window / (window : ℚ)))) := by
  by_cases hguard : arr.length = 0 ∨ window ≤ 1
  · refine ⟨?_, ?_, ?_⟩
    · unfold FormatJs.computeMovingAverage
      rw [if_pos hguard, List.length_map]
    · intro hw1
      unfold FormatJs.computeMovingAverage
      rw [if_pos (Or.inr hw1)]
    · intro hw2 i hi
      rcases hguard with h0 | h1
      · rw [h0] at hi
        exact absurd hi (by omega)
      · exact absurd hw2 (by omega)
  · have hw2 : 2 ≤ window := by
      have hng := hguard
      push_neg at hng
      omega
    have hm0 : min 0 window = 0 := min_eq_left (Nat.zero_le window)
    have hinit : (0 : ℚ) = sumFrom (arr.map accessor) (0 - min 0 window) (min 0 window) := by
      simp [hm0, sumFrom]
    have hspec := smaAux_spec (arr.map accessor) window hw2 (arr.map accessor) 0 0
      (by simp) hinit
    have hunfold : FormatJs.computeMovingAverage arr accessor window
        = smaAux (arr.map accessor) window (arr.map accessor) 0 0 := by
      unfold FormatJs.computeMovingAverage
      rw [if_neg hguard]
    refine ⟨?_, ?_, ?_⟩
    · rw [hunfold, hspec.1, List.length_map]
    · intro h1
      exact absurd h1 (by omega)
    · intro _ i hi
      have hi' : i < (arr.map accessor).length := by
        rw [List.length_map]
        exact hi
      constructor
      · intro hlt
        rw [hunfold, hspec.2 i hi', if_neg (by omega : ¬ window - 1 ≤ 0 + i)]
      · intro hge
        rw [hunfold, hspec.2 i hi', if_pos (by omega : window - 1 ≤ 0 + i)]
        rw [Nat.zero_add]

theorem c8_computeMovingAverage_windowed_mean_witness :
    (FormatJs.computeMovingAverage [(1 : ℚ), 2, 3, 4] (fun x => x) 2).getD 1 none
      = some (sumFrom ([(1 : ℚ), 2, 3, 4].map (fun x => x)) (1 + 1 - 2) 2 / ((2 : Nat) : ℚ)) :=
  ((c8_computeMovingAverage_windowed_mean [(1 : ℚ), 2, 3, 4] (fun x => x) 2).2.2
    (by decide) 1 (by decide)).2 (by decide)

theorem getD_set_self : ∀ (l : List Int) (n : Nat) (x : Int),
    n < l.length → (l.set n x).getD n 0 = x := by
  intro l
  induction l with
  | nil => intro n x h; simp at h
  | cons b t ih =>
    intro n x h
    cases n with
    | zero => rfl
    | succ m =>
      simp only [List.set, List.getD_cons_succ]
      exact ih m x (by simp at h; omega)

theorem getD_set_other : ∀ (l : List Int) (n m : Nat) (x : Int),
    m ≠ n → (l.set n x).getD m 0 = l.getD m 0 := by
  intro l
  induction l with
  | nil => intro n m x _; simp [List.set]
  | cons b t ih =>
    intro n m x h
    cases n with
    | zero =>
      cases m with
      | zero => exact absurd rfl h
      | succ m0 => rfl
    | succ n0 =>
      cases m with
      | zero => rfl
      | succ m0 =>
        simp only [List.set, List.getD_cons_succ]
        exact ih n0 m0 x (by omega)

theorem sum_set_plus : ∀ (l : List Int) (n : Nat) (x : Int),
    n < l.length → (l.set n x).sum = l.sum + x - l.getD n 0 := by
  intro l
  induction l with
  | nil => intro n x h; simp at h
  | cons b t ih =>
    intro n x h
    cases n with
    | zero =>
      simp only [List.set, List.sum_cons, List.getD_cons_zero]
      ring
    | succ m =>
      simp only [List.set, List.sum_cons, List.getD_cons_succ]
      rw [ih m x (by simp at h; omega)]
      ring

namespace AdminView

/-- An element of a question's answers array: its selectedOptionIndex field,
none when missing or not a number. -/
structure Answer where
  selectedOptionIndex : Option Int
deriving DecidableEq

/-- A question as part_001's getOptionCounts reads it. -/
structure Question where
  optionCounts : Option (List Int) := none
  answers : Option (List Answer) := none
  options : Option (List String) := none

/-- The loop body of part_001 getOptionCounts: a non-number index becomes -1,
and an index in [0, counts.length) increments its bucket. -/
def bumpCounts (counts : List Int) (a : Answer) : List Int :=
  let idx : Int :=
    match a.selectedOptionIndex with
    | some j => j
    | none => -1
  if 0 ≤ idx ∧ idx < (counts.length : Int) then
    counts.set idx.toNat (counts.getD idx.toNat 0 + 1)
  else counts

/-- part_001 getOptionCounts: q.optionCounts when it is an array, else a local
aggregation over q.answers when that is an array, else null. -/
def getOptionCounts (q : Question) : Option (List Int) :=
  match q.optionCounts with
  | some oc => some oc
  | none =>
    match q.answers with
    | some answers =>
      some (answers.foldl bumpCounts (List.replicate (q.options.getD []).length 0))
    | none => none

/-- Does the answer carry a numeric index inside [0, n)? -/
def answerInRange (n : Nat) (a : Answer) : Bool :=
  match a.selectedOptionIndex with
  | some j => decide (0 ≤ j ∧ j < (n : Int))
  | none => false

end AdminView

theorem bumpCounts_length (counts : List Int) (a : AdminView.Answer) :
    (AdminView.bumpCounts counts a).length = counts.length := by
  unfold AdminView.bumpCounts
  cases a.selectedOptionIndex <;> dsimp only <;> split <;> simp

theorem bumpCounts_getD (counts : List Int) (a : AdminView.Answer) (i : Nat)
    (hi : i < counts.length) :
    (AdminView.bumpCounts counts a).getD i 0 =
      counts.getD i 0 +
        (if a.selectedOptionIndex = some (i : Int) then 1 else 0) := by
  unfold AdminView.bumpCounts
  cases hsel : a.selectedOptionIndex with
  | none =>
    simp only [hsel]
    rw [if_neg (by omega : ¬ ((0 : Int) ≤ -1 ∧ (-1 : Int) < (counts.length : Int)))]
    simp
  | some j =>
    simp only [hsel]
    by_cases hcond : (0 : Int) ≤ j ∧ j < (counts.length : Int)
    · rw [if_pos hcond]
      by_cases hji : j = (i : Int)
      · have hjt : j.toNat = i := by omega
        rw [hjt, getD_set_self counts i _ hi, if_pos (by rw [hji])]
      · have hjt : i ≠ j.toNat := by omega
        rw [getD_set_other counts j.toNat i _ hjt,
          if_neg (by simp [hji])]
        simp
    · rw [if_neg hcond]
      have hne : ¬ (some j = some ((i : Nat) : Int)) := by
        intro heq
        simp only [Option.some.injEq] at heq
        exact hcond (by constructor <;> omega)
      rw [if_neg hne]
      simp

theorem bumpCounts_sum (counts : List Int) (a : AdminView.Answer) :
    (AdminView.bumpCounts counts a).sum =
      counts.sum + (if AdminView.answerInRange counts.length a then 1 else 0) := by
  unfold AdminView.bumpCounts AdminView.answerInRange
  cases hsel : a.selectedOptionIndex with
  | none =>
    rw [if_neg (by omega : ¬ ((0 : Int) ≤ -1 ∧ (-1 : Int) < (counts.length : Int)))]
    simp
  | some j =>
    by_cases hcond : (0 : Int) ≤ j ∧ j < (counts.length : Int)
    · rw [if_pos hcond]
      have hlt : j.toNat < counts.length := by omega
      rw [sum_set_plus counts j.toNat _ hlt]
      rw [if_pos (by simpa using hcond)]
      ring
    · rw [if_neg hcond, if_neg (by simpa using hcond)]
      simp

theorem foldl_bumpCounts_spec (l : List AdminView.Answer) :
    ∀ counts : List Int,
      (l.foldl AdminView.bumpCounts counts).length = counts.length
      ∧ (∀ i, i < counts.length →
          (l.foldl AdminView.bumpCounts counts).getD i 0
            = counts.getD i 0 +
              ((l.filter (fun a => decide (a.selectedOptionIndex = some (i : Int)))).length : Int))
      ∧ (l.foldl AdminView.bumpCounts counts).sum
          = counts.sum +
            ((l.filter (AdminView.answerInRange counts.length)).length : Int) := by
  induction l with
  | nil => intro counts; refine ⟨rfl, fun i _ => by simp, by simp⟩
  | cons a rest ih =>
    intro counts
    have hstep : (a :: rest).foldl AdminView.bumpCounts counts
        = rest.foldl AdminView.bumpCounts (AdminView.bumpCounts counts a) := rfl
    have hblen := bumpCounts_length counts a
    obtain ⟨ihlen, ihget, ihsum⟩ := ih (AdminView.bumpCounts counts a)
    refine ⟨?_, ?_, ?_⟩
    · rw [hstep, ihlen, hblen]
    · intro i hi
      rw [hstep, ihget i (by rw [hblen]; exact hi)]
      rw [bumpCounts_getD counts a i hi]
      by_cases hm : a.selectedOptionIndex = some (i : Int)
      · rw [if_pos hm]
        rw [List.filter_cons_of_pos (by simpa using hm)]
        simp only [List.length_cons]
        push_cast
        ring
      · rw [if_neg hm]
        rw [List.filter_cons_of_neg (by simpa using hm)]
        ring
    · rw [hstep, ihsum, hblen, bumpCounts_sum counts a]
      by_cases hr : AdminView.answerInRange counts.length a = true
      · rw [if_pos hr, List.filter_cons_of_pos hr]
        simp only [List.length_cons]
        push_cast
        ring
      · rw [if_neg hr, List.filter_cons_of_neg (by simpa using hr)]
        ring

/-- C9: getOptionCounts returns q.optionCounts unchanged when it is an array;
otherwise, when q.answers is an array, it returns counts whose length is the
number of options, whose entry at index i counts the answers whose
selectedOptionIndex is exactly i, and whose total equals the number of answers
with a numeric in-range index; otherwise it returns null. -/
theorem c9_getOptionCounts_aggregation :
    ∀ q : AdminView.Question,
      (∀ oc, q.optionCounts = some oc → AdminView.getOptionCounts q = some oc)
      ∧ (q.optionCounts = none → ∀ l, q.answers = some l →
          ∃ counts, AdminView.getOptionCounts q = some counts
            ∧ counts.length = (q.options.getD []).length
            ∧ (∀ i, i < counts.length →
                counts.getD i 0 =
                  ((l.filter (fun a =>
                      decide (a.selectedOptionIndex = some (i : Int)))).length : Int))
            ∧ counts.sum =
                ((l.filter (AdminView.answerInRange (q.options.getD []).length)).length : Int))
      ∧ (q.optionCounts = none → q.answers = none →
          AdminView.getOptionCounts q = none) := by
  intro q
  refine ⟨?_, ?_, ?_⟩
  · intro oc hoc
    simp [AdminView.getOptionCounts, hoc]
  · intro hoc l hl
    obtain ⟨hlen, hget, hsum⟩ := foldl_bumpCounts_spec l
      (List.replicate (q.options.getD []).length 0)
    refine ⟨l.foldl AdminView.bumpCounts
        (List.replicate (q.options.getD []).length 0), ?_, ?_, ?_, ?_⟩
    · simp [AdminView.getOptionCounts, hoc, hl]
    · rw [hlen, List.length_replicate]
    · intro i hi
      rw [hlen, List.length_replicate] at hi
      rw [hget i (by rw [List.length_replicate]; exact hi)]
      rw [List.getD_eq_getElem?_getD, List.getElem?_replicate]
      simp [hi]
    · rw [hsum, List.length_replicate]
      simp [List.sum_replicate]
  · intro hoc hl
    simp [AdminView.getOptionCounts, hoc, hl]

theorem c9_getOptionCounts_aggregation_witness :
    ∃ counts, AdminView.getOptionCounts
        ⟨none,
          some [⟨some 0⟩, ⟨some 1⟩, ⟨some 1⟩, ⟨none⟩, ⟨some 7⟩],
          some ["a", "b", "c"]⟩ = some counts
      ∧ counts.length = 3
      ∧ (∀ i, i < counts.length →
          counts.getD i 0 =
            (([⟨some 0⟩, ⟨some 1⟩, ⟨some 1⟩, (⟨none⟩ : AdminView.Answer), ⟨some 7⟩].filter
                (fun a => decide (a.selectedOptionIndex = some (i : Int)))).length : Int))
      ∧ counts.sum =
          (([⟨some 0⟩, ⟨some 1⟩, ⟨some 1⟩, (⟨none⟩ : AdminView.Answer), ⟨some 7⟩].filter
              (AdminView.answerInRange 3)).length : Int) := by
  have h := (c9_getOptionCounts_aggregation
    ⟨none, some [⟨some 0⟩, ⟨some 1⟩, ⟨some 1⟩, ⟨none⟩, ⟨some 7⟩],
      some ["a", "b", "c"]⟩).2.1 rfl
    [⟨some 0⟩, ⟨some 1⟩, ⟨some 1⟩, ⟨none⟩, ⟨some 7⟩] rfl
  simpa using h

namespace QuestionsView

/-- A 'new_answer' socket payload as the handler reads it: question_id (none
when missing) and selectedOptionIndex (none when missing or not a number). -/
structure AnswerPayload where
  question_id : Option String
  selectedOptionIndex : Option Int

/-- A question as the Questions view reads it for counter bookkeeping. -/
structure QuestionView where
  mongoId : Option String := none
  id : Option String := none
  text : Option String := none
  options : Option (List String) := none

/-- The `q._id || q.id || q.text` key of a question. -/
def getQuestionId (q : QuestionView) : Option String :=
  orS (orS q.mongoId q.id) q.text

/-- questions.find on `(q._id || q.id || q.text) === qid`. -/
def findQuestion (questions : List QuestionView) (qid : String) : Option QuestionView :=
  questions.find? (fun q => getQuestionId q == some qid)

/-- The `existing?.length ?? (question?.options?.length || 0)` length choice
shared by the socket handler and the optimistic submit update. -/
def countsLenFor (questions : List QuestionView) (qid : String)
    (existing : Option (List Int)) : Nat :=
  match existing with
  | some cs => cs.length
  | none =>
    match findQuestion questions qid with
    | some q => (q.options.getD []).length
    | none => 0

/-- `if (idx >= 0 && idx < len) next[idx] += 1` applied to a copied counts array. -/
def updatedCounts (cs : List Int) (idx : Int) : List Int :=
  if 0 ≤ idx ∧ idx < (cs.length : Int) then
    cs.set idx.toNat (cs.getD idx.toNat 0 + 1)
  else cs

/-- The setCounts updater both call sites share: keep the state when no length
is known, else bump the chosen bucket of the existing (or freshly zeroed)
counts array and write it back under the question id. -/
def applyAnswer (questions : List QuestionView) (qid : String) (idx : Int)
    (prev : List (String × List Int)) : List (String × List Int) :=
  if countsLenFor questions qid (lookupKV prev qid) ≤ 0 then prev
  else
    setKV prev qid
      (updatedCounts
        ((lookupKV prev qid).getD
          (List.replicate (countsLenFor questions qid (lookupKV prev qid)) 0))
        idx)

/-- part_002's 'new_answer' handler: ignore payloads without a truthy
question_id or a numeric selectedOptionIndex, else apply the counter update. -/
def newAnswerUpdate (questions : List QuestionView) (payload : AnswerPayload)
    (prev : List (String × List Int)) : List (String × List Int) :=
  match payload.question_id with
  | none => prev
  | some qid =>
    if qid = "" then prev
    else
      match payload.selectedOptionIndex with
      | none => prev
      | some idx => applyAnswer questions qid idx prev

/-- part_002's handleSubmit optimistic update: return unless the selected index
is a number, else apply the same counter update for the submitted question. -/
def handleSubmitUpdate (questions : List QuestionView) (qid : String)
    (selectedIdx : Option Int) (prev : List (String × List Int)) :
    List (String × List Int) :=
  match selectedIdx with
  | none => prev
  | some idx => applyAnswer questions qid idx prev

end QuestionsView

theorem applyAnswer_lookup_other (questions : List QuestionsView.QuestionView)
    (qid : String) (idx : Int) (prev : List (String × List Int)) (q' : String)
    (h : q' ≠ qid) :
    lookupKV (QuestionsView.applyAnswer questions qid idx prev) q'
      = lookupKV prev q' := by
  unfold QuestionsView.applyAnswer
  split
  · rfl
  · exact lookupKV_setKV_other _ _ h

theorem applyAnswer_existing (questions : List QuestionsView.QuestionView)
    (qid : String) (idx : Int) (prev : List (String × List Int)) (cs : List Int)
    (hcs : lookupKV prev qid = some cs) (h0 : 0 ≤ idx)
    (h1 : idx < (cs.length : Int)) :
    lookupKV (QuestionsView.applyAnswer questions qid idx prev) qid
      = some (cs.set idx.toNat (cs.getD idx.toNat 0 + 1)) := by
  have hlen : QuestionsView.countsLenFor questions qid (lookupKV prev qid)
      = cs.length := by
    rw [hcs]
    rfl
  have hpos : ¬ (QuestionsView.countsLenFor questions qid (lookupKV prev qid) ≤ 0) := by
    rw [hlen]
    omega
  unfold QuestionsView.applyAnswer
  rw [if_neg hpos, hcs]
  simp only [Option.getD_some]
  rw [lookupKV_setKV_self]
  unfold QuestionsView.updatedCounts
  rw [if_pos ⟨h0, h1⟩]

/-- C10: each counter update changes at most the one entry of the event's
question: all other question ids keep their counts; payloads without a truthy
question_id or a numeric selectedOptionIndex leave the whole state unchanged
(a submit update with a non-numeric selection likewise); and when the
question's counts array exists and the index is in range, the bucket at
selectedOptionIndex grows by exactly one while every other bucket of that
question is unchanged — for both the 'new_answer' handler and the optimistic
submit update. -/
theorem c10_counter_update_frame :
    ∀ (questions : List QuestionsView.QuestionView)
      (payload : QuestionsView.AnswerPayload)
      (prev : List (String × List Int)),
      (∀ q', payload.question_id ≠ some q' →
        lookupKV (QuestionsView.newAnswerUpdate questions payload prev) q'
          = lookupKV prev q')
      ∧ ((payload.question_id = none ∨ payload.question_id = some ""
            ∨ payload.selectedOptionIndex = none) →
        QuestionsView.newAnswerUpdate questions payload prev = prev)
      ∧ (∀ qid idx cs, payload.question_id = some qid → qid ≠ "" →
          payload.selectedOptionIndex = some idx →
          lookupKV prev qid = some cs → 0 ≤ idx → idx < (cs.length : Int) →
          lookupKV (QuestionsView.newAnswerUpdate questions payload prev) qid
            = some (cs.set idx.toNat (cs.getD idx.toNat 0 + 1))
          ∧ (cs.set idx.toNat (cs.getD idx.toNat 0 + 1)).getD idx.toNat 0
              = cs.getD idx.toNat 0 + 1
          ∧ (∀ j, j ≠ idx.toNat →
              (cs.set idx.toNat (cs.getD idx.toNat 0 + 1)).getD j 0 = cs.getD j 0))
      ∧ (∀ qid idx q', q' ≠ qid →
        lookupKV (QuestionsView.handleSubmitUpdate questions qid idx prev) q'
          = lookupKV prev q')
      ∧ (∀ qid, QuestionsView.handleSubmitUpdate questions qid none prev = prev)
      ∧ (∀ qid idx cs, lookupKV prev qid = some cs → 0 ≤ idx →
          idx < (cs.length : Int) →
          lookupKV (QuestionsView.handleSubmitUpdate questions qid (some idx) prev) qid
            = some (cs.set idx.toNat (cs.getD idx.toNat 0 + 1))) := by
  intro questions payload prev
  refine ⟨?_, ?_, ?_, ?_, ?_, ?_⟩
  · intro q' hq
    cases hid : payload.question_id with
    | none => simp [QuestionsView.newAnswerUpdate, hid]
    | some qid =>
      by_cases hqe : qid = ""
      · simp [QuestionsView.newAnswerUpdate, hid, hqe]
      · cases hsel : payload.selectedOptionIndex with
        | none => simp [QuestionsView.newAnswerUpdate, hid, hqe, hsel]
        | some idx =>
          have hne : q' ≠ qid := by
            intro heq
            exact hq (by rw [hid, heq])
          simp only [QuestionsView.newAnswerUpdate, hid, hsel, if_neg hqe]
          exact applyAnswer_lookup_other questions qid idx prev q' hne
  · intro hcase
    rcases hcase with h | h | h
    · simp [QuestionsView.newAnswerUpdate, h]
    · simp [QuestionsView.newAnswerUpdate, h]
    · cases hid : payload.question_id with
      | none => simp [QuestionsView.newAnswerUpdate, hid]
      | some qid =>
        by_cases hqe : qid = "" <;>
          simp [QuestionsView.newAnswerUpdate, hid, hqe, h]
  · intro qid idx cs hid hqe hsel hcs h0 h1
    have hmain : lookupKV (QuestionsView.newAnswerUpdate questions payload prev) qid
        = some (cs.set idx.toNat (cs.getD idx.toNat 0 + 1)) := by
      simp only [QuestionsView.newAnswerUpdate, hid, hsel, if_neg hqe]
      exact applyAnswer_existing questions qid idx prev cs hcs h0 h1
    refine ⟨hmain, ?_, ?_⟩
    · exact getD_set_self cs idx.toNat _ (by omega)
    · intro j hj
      exact getD_set_other cs idx.toNat j _ hj
  · intro qid idx q' hq
    cases idx with
    | none => simp [QuestionsView.handleSubmitUpdate]
    | some i =>
      simp only [QuestionsView.handleSubmitUpdate]
      exact applyAnswer_lookup_other questions qid i prev q' hq
  · intro qid
    rfl
  · intro qid idx cs hcs h0 h1
    simp only [QuestionsView.handleSubmitUpdate]
    exact applyAnswer_existing questions qid idx prev cs hcs h0 h1

theorem c10_counter_update_frame_witness :
    lookupKV (QuestionsView.newAnswerUpdate []
        ⟨some "q1", some 1⟩ [("q1", [2, 5, 7]), ("q2", [1, 1])]) "q1"
      = some [2, 6, 7]
    ∧ lookupKV (QuestionsView.newAnswerUpdate []
        ⟨some "q1", some 1⟩ [("q1", [2, 5, 7]), ("q2", [1, 1])]) "q2"
      = some [1, 1] := by
  have h := (c10_counter_update_frame [] ⟨some "q1", some 1⟩
    [("q1", [2, 5, 7]), ("q2", [1, 1])]).2.2.1 "q1" 1 [2, 5, 7]
    rfl (by decide) rfl rfl (by decide) (by decide)
  have hframe := (c10_counter_update_frame [] ⟨some "q1", some 1⟩
    [("q1", [2, 5, 7]), ("q2", [1, 1])]).1 "q2" (by simp)
  constructor
  · rw [h.1]
    rfl
  · rw [hframe]
    rfl
